import Mathlib

/-!
# Verification of the reddit-data-collector core

A shallow embedding of the functional core of the `reddit-data-collector`
package: the flat post/comment records, the deduplicating update/merge of
snapshots, the comment-tree placeholder resolution and flattening, and the
data-collection routine with its subreddit-existence check.

The repository ships the Python module only through its documentation,
changelog and example notebook, so the operations are modelled from the
specification text (each such definition carries a doc comment saying so);
the record field lists are taken from the example notebook's printed
DataFrame schemas, which are part of the repository.
-/

/-- A flat post record.  Field names and order follow the schema printed by
`posts.info()` in `examples/example_use.ipynb` (15 columns).  Timestamps and
the upvote ratio are carried abstractly as integers / rationals: no claim
computes with them. -/
structure PostData where
  subreddit_name : String
  post_created_utc : Int
  id : String
  is_original_content : Bool
  is_self : Bool
  link_flair_text : Option String
  locked : Bool
  num_comments : Nat
  over_18 : Bool
  score : Int
  spoiler : Bool
  stickied : Bool
  title : String
  upvote_ratio : Rat
  url : String
  deriving Repr, DecidableEq

/-- A flat comment record.  Field names and order follow the schema printed
by `comments.info()` in `examples/example_use.ipynb` (10 columns). -/
structure CommentData where
  subreddit_name : String
  id : String
  post_id : String
  parent_id : String
  top_level_comment : Bool
  body : String
  comment_created_utc : Int
  is_submitter : Bool
  score : Int
  stickied : Bool
  deriving Repr, DecidableEq

/-- The 15 post-record column names, as printed by `posts.info()` in the
example notebook. -/
def postRecordFields : List String :=
  ["subreddit_name", "post_created_utc", "id", "is_original_content",
   "is_self", "link_flair_text", "locked", "num_comments", "over_18",
   "score", "spoiler", "stickied", "title", "upvote_ratio", "url"]

/-- The 10 comment-record column names, as printed by `comments.info()` in
the example notebook. -/
def commentRecordFields : List String :=
  ["subreddit_name", "id", "post_id", "parent_id", "top_level_comment",
   "body", "comment_created_utc", "is_submitter", "score", "stickied"]

/-- A rendered cell of a tabular row: every field is serialised to text when
a snapshot is persisted as delimited tabular text. -/
def cellOfBool (b : Bool) : String := if b then "True" else "False"

/-- Flattening of a post record to one tabular row of (column, cell) pairs,
in the order of `postRecordFields`. -/
def postToRow (p : PostData) : List (String × String) :=
  [("subreddit_name", p.subreddit_name),
   ("post_created_utc", toString p.post_created_utc),
   ("id", p.id),
   ("is_original_content", cellOfBool p.is_original_content),
   ("is_self", cellOfBool p.is_self),
   ("link_flair_text", (p.link_flair_text).getD ""),
   ("locked", cellOfBool p.locked),
   ("num_comments", toString p.num_comments),
   ("over_18", cellOfBool p.over_18),
   ("score", toString p.score),
   ("spoiler", cellOfBool p.spoiler),
   ("stickied", cellOfBool p.stickied),
   ("title", p.title),
   ("upvote_ratio", toString p.upvote_ratio),
   ("url", p.url)]

/-- Flattening of a comment record to one tabular row of (column, cell)
pairs, in the order of `commentRecordFields`. -/
def commentToRow (c : CommentData) : List (String × String) :=
  [("subreddit_name", c.subreddit_name),
   ("id", c.id),
   ("post_id", c.post_id),
   ("parent_id", c.parent_id),
   ("top_level_comment", cellOfBool c.top_level_comment),
   ("body", c.body),
   ("comment_created_utc", toString c.comment_created_utc),
   ("is_submitter", cellOfBool c.is_submitter),
   ("score", toString c.score),
   ("stickied", cellOfBool c.stickied)]

/-- The header row a persisted post snapshot starts with. -/
def postSnapshotHeader : List String := postRecordFields

/-- The header row a persisted comment snapshot starts with. -/
def commentSnapshotHeader : List String := commentRecordFields

/-! ## The deduplicating merge -/

/-- One pass over a list dropping every element whose key was already seen,
threading the list of keys seen so far.  This is the keep-first-occurrence
duplicate removal (`drop_duplicates` on the id column). -/
def dedupByKey {α κ : Type} [DecidableEq κ] (f : α → κ) :
    List α → List κ → List α
  | [], _ => []
  | a :: as, seen =>
      if f a ∈ seen then dedupByKey f as seen
      else a :: dedupByKey f as (f a :: seen)

/-- The keys recorded after a `dedupByKey` pass over a list. -/
def seenAfter {α κ : Type} [DecidableEq κ] (f : α → κ) :
    List α → List κ → List κ
  | [], seen => seen
  | a :: as, seen =>
      if f a ∈ seen then seenAfter f as seen
      else seenAfter f as (f a :: seen)

/-- Removal of duplicate keys keeping the first occurrence, written the way
the specification phrases it: walk the concatenation left to right and append
a record only when its id has not been kept yet. -/
def keepFirstByKey {α κ : Type} [DecidableEq κ] (f : α → κ)
    (xs : List α) : List α :=
  xs.foldl (fun acc a => if f a ∈ acc.map f then acc else acc ++ [a]) []

/-- Modelled from the spec: loading a prior snapshot from a path.  The
module's update routine is not shipped under `src/`; the spec says a missing
snapshot file is treated as an empty prior snapshot (§7), so the filesystem
is a partial map from paths to snapshots and a missing path loads as `[]`. -/
def load_data {α : Type} (fs : String → Option (List α)) (path : String) :
    List α :=
  (fs path).getD []

/-- Modelled from the spec: `update_data` of `reddit_data_collector` is not
shipped under `src/`.  Per §4.2 it loads the prior snapshot, concatenates it
with the newly collected records, removes duplicate ids keeping the first
occurrence, and optionally persists the merged result back to the same path,
overwriting it.  The record id is abstracted as a key function `f`. -/
def update_data {α κ : Type} [DecidableEq κ] (f : α → κ)
    (fs : String → Option (List α)) (path : String) (new_data : List α)
    (save : Bool) : List α × (String → Option (List α)) :=
  let old_data := load_data fs path
  let updated_data := dedupByKey f (old_data ++ new_data) []
  (updated_data,
   if save then fun p => if p = path then some updated_data else fs p else fs)

/-- The in-memory core of `update_data`: merge a new batch into a prior
snapshot, dropping records whose id already occurred earlier. -/
def merge_records {α κ : Type} [DecidableEq κ] (f : α → κ)
    (prior batch : List α) : List α :=
  dedupByKey f (prior ++ batch) []

/-! ### Properties of the deduplication pass -/

section DedupLemmas

variable {α κ : Type} [DecidableEq κ] (f : α → κ)

theorem dedupByKey_congr (xs : List α) :
    ∀ (s t : List κ), (∀ k, k ∈ s ↔ k ∈ t) →
      dedupByKey f xs s = dedupByKey f xs t := by
  induction xs with
  | nil => intro s t _; rfl
  | cons a as ih =>
      intro s t h
      by_cases hm : f a ∈ s
      · have hmt : f a ∈ t := (h _).1 hm
        simp only [dedupByKey, if_pos hm, if_pos hmt]
        exact ih s t h
      · have hmt : f a ∉ t := fun hc => hm ((h _).2 hc)
        simp only [dedupByKey, if_neg hm, if_neg hmt]
        refine congrArg _ (ih _ _ ?_)
        intro k
        simp only [List.mem_cons, h k]

theorem dedupByKey_append (xs ys : List α) :
    ∀ seen, dedupByKey f (xs ++ ys) seen =
      dedupByKey f xs seen ++ dedupByKey f ys (seenAfter f xs seen) := by
  induction xs with
  | nil => intro seen; simp [dedupByKey, seenAfter]
  | cons a as ih =>
      intro seen
      by_cases hm : f a ∈ seen <;>
        simp [dedupByKey, seenAfter, hm, ih]

theorem mem_seenAfter (k : κ) (xs : List α) :
    ∀ seen, k ∈ seenAfter f xs seen ↔ k ∈ xs.map f ∨ k ∈ seen := by
  induction xs with
  | nil => intro seen; simp [seenAfter]
  | cons a as ih =>
      intro seen
      by_cases hm : f a ∈ seen
      · simp only [seenAfter, if_pos hm, ih, List.map_cons, List.mem_cons]
        constructor
        · rintro (h | h)
          · exact Or.inl (Or.inr h)
          · exact Or.inr h
        · rintro ((h | h) | h)
          · exact Or.inr (h ▸ hm)
          · exact Or.inl h
          · exact Or.inr h
      · simp only [seenAfter, if_neg hm, ih, List.map_cons, List.mem_cons]
        constructor
        · rintro (h | (h | h))
          · exact Or.inl (Or.inr h)
          · exact Or.inl (Or.inl h)
          · exact Or.inr h
        · rintro ((h | h) | h)
          · exact Or.inr (Or.inl h)
          · exact Or.inl h
          · exact Or.inr (Or.inr h)

theorem dedupByKey_eq_nil (ys : List α) :
    ∀ seen, (∀ a ∈ ys, f a ∈ seen) → dedupByKey f ys seen = [] := by
  induction ys with
  | nil => intro seen _; rfl
  | cons a as ih =>
      intro seen h
      have hm : f a ∈ seen := h a (List.mem_cons_self a as)
      simp only [dedupByKey, if_pos hm]
      exact ih seen fun b hb => h b (List.mem_cons_of_mem a hb)

theorem dedupByKey_idem (xs : List α) :
    ∀ seen, dedupByKey f (dedupByKey f xs seen) seen =
      dedupByKey f xs seen := by
  induction xs with
  | nil => intro seen; rfl
  | cons a as ih =>
      intro seen
      by_cases hm : f a ∈ seen
      · simp only [dedupByKey, if_pos hm]; exact ih seen
      · simp only [dedupByKey, if_neg hm]
        exact congrArg _ (ih (f a :: seen))

theorem mem_map_dedupByKey (k : κ) (xs : List α) :
    ∀ seen, k ∈ xs.map f → k ∉ seen →
      k ∈ (dedupByKey f xs seen).map f := by
  induction xs with
  | nil => intro seen h _; simp at h
  | cons a as ih =>
      intro seen hk hns
      rw [List.map_cons] at hk
      rcases List.mem_cons.1 hk with h | h
      · have hm : f a ∉ seen := h ▸ hns
        simp [dedupByKey, if_neg hm, h]
      · by_cases hm : f a ∈ seen
        · simp only [dedupByKey, if_pos hm]
          exact ih seen h hns
        · by_cases hka : k = f a
          · simp [dedupByKey, if_neg hm, hka]
          · simp only [dedupByKey, if_neg hm, List.map_cons, List.mem_cons]
            exact Or.inr (ih (f a :: seen) h (by simp [hka, hns]))

theorem dedupByKey_map_nodup (xs : List α) :
    ∀ seen, ((dedupByKey f xs seen).map f).Nodup ∧
      ∀ k ∈ (dedupByKey f xs seen).map f, k ∉ seen := by
  induction xs with
  | nil => intro seen; simp [dedupByKey]
  | cons a as ih =>
      intro seen
      by_cases hm : f a ∈ seen
      · simpa only [dedupByKey, if_pos hm] using ih seen
      · obtain ⟨hnd, hdisj⟩ := ih (f a :: seen)
        simp only [dedupByKey, if_neg hm, List.map_cons]
        constructor
        · exact List.nodup_cons.2
            ⟨fun hc => (hdisj _ hc) (List.mem_cons_self _ _), hnd⟩
        · intro k hk
          rcases List.mem_cons.1 hk with h | h
          · exact h ▸ hm
          · exact fun hc => (hdisj k h) (List.mem_cons_of_mem _ hc)

theorem dedupByKey_of_nodup (xs : List α) :
    ∀ seen, (xs.map f).Nodup → (∀ x ∈ xs, f x ∉ seen) →
      dedupByKey f xs seen = xs := by
  induction xs with
  | nil => intro seen _ _; rfl
  | cons a as ih =>
      intro seen hnd hdisj
      have hm : f a ∉ seen := hdisj a (List.mem_cons_self a as)
      simp only [dedupByKey, if_neg hm]
      refine congrArg _ (ih (f a :: seen) (List.nodup_cons.1 (by simpa using hnd)).2 ?_)
      intro x hx
      simp only [List.mem_cons, not_or]
      refine ⟨?_, hdisj x (List.mem_cons_of_mem a hx)⟩
      intro hfx
      exact (List.nodup_cons.1 (by simpa using hnd)).1
        (hfx ▸ List.mem_map_of_mem f hx)

theorem keepFirst_loop (xs : List α) :
    ∀ (acc : List α),
      xs.foldl (fun acc a => if f a ∈ acc.map f then acc else acc ++ [a]) acc
        = acc ++ dedupByKey f xs (acc.map f) := by
  induction xs with
  | nil => intro acc; simp [dedupByKey]
  | cons a as ih =>
      intro acc
      by_cases hm : f a ∈ acc.map f
      · simp only [List.foldl_cons, if_pos hm, dedupByKey]
        exact ih acc
      · simp only [List.foldl_cons, if_neg hm, dedupByKey]
        rw [ih (acc ++ [a])]
        rw [dedupByKey_congr f as ((acc ++ [a]).map f) (f a :: acc.map f)
          (by intro k; simp [or_comm])]
        simp

theorem keepFirstByKey_eq_dedup (xs : List α) :
    keepFirstByKey f xs = dedupByKey f xs [] := by
  simpa [keepFirstByKey] using keepFirst_loop f xs []

end DedupLemmas

/-! ## Comment trees and placeholder resolution -/

/-- A node of a post's comment forest as delivered by the Reddit API
client: a real comment with its (nested) replies, or a "load more comments"
placeholder hiding a further forest that a resolution network call would
reveal. -/
inductive CommentNode : Type where
  | comment (c : CommentData) (replies : List CommentNode)
  | more (hidden : List CommentNode)
  deriving Repr

mutual

/-- Number of real comments of a node that are currently materialised
(placeholder contents not counted). -/
def nodeVisible : CommentNode → Nat
  | .comment _ rs => 1 + forestVisible rs
  | .more _ => 0

/-- Number of currently materialised real comments of a forest. -/
def forestVisible : List CommentNode → Nat
  | [] => 0
  | n :: ns => nodeVisible n + forestVisible ns

end

mutual

/-- Number of real comments of a node, those hidden behind placeholders
included. -/
def nodeAll : CommentNode → Nat
  | .comment _ rs => 1 + forestAll rs
  | .more hidden => forestAll hidden

/-- Number of real comments of a forest, those hidden behind placeholders
included. -/
def forestAll : List CommentNode → Nat
  | [] => 0
  | n :: ns => nodeAll n + forestAll ns

end

mutual

/-- `true` when a node contains no "load more comments" placeholder. -/
def nodeNoMore : CommentNode → Bool
  | .comment _ rs => forestNoMore rs
  | .more _ => false

/-- `true` when a forest contains no "load more comments" placeholder. -/
def forestNoMore : List CommentNode → Bool
  | [] => true
  | n :: ns => nodeNoMore n && forestNoMore ns

end

mutual

/-- Full placeholder resolution of a node: every placeholder is replaced by
the forest it hides, recursively, and its nodes are spliced in place. -/
def nodeResolveAll : CommentNode → List CommentNode
  | .comment c rs => [.comment c (forestResolveAll rs)]
  | .more hidden => forestResolveAll hidden

/-- Full placeholder resolution of a forest. -/
def forestResolveAll : List CommentNode → List CommentNode
  | [] => []
  | n :: ns => nodeResolveAll n ++ forestResolveAll ns

end

mutual

/-- Budget-limited placeholder resolution of a node, walking the forest in
order: a placeholder met while the budget lasts is resolved (one unit spent,
its hidden forest processed under the remaining budget and spliced in
place); a placeholder met with the budget exhausted is removed.  Returns the
processed node(s) and the number of placeholders resolved. -/
def nodeReplace : Nat → CommentNode → List CommentNode × Nat
  | budget, .comment c rs =>
      let p := forestReplace budget rs
      ([.comment c p.1], p.2)
  | budget, .more hidden =>
      if budget = 0 then ([], 0)
      else
        let p := forestReplace (budget - 1) hidden
        (p.1, 1 + p.2)

/-- Budget-limited placeholder resolution of a forest; the budget spent on a
node is no longer available to its right siblings. -/
def forestReplace : Nat → List CommentNode → List CommentNode × Nat
  | _, [] => ([], 0)
  | budget, n :: ns =>
      let p := nodeReplace budget n
      let q := forestReplace (budget - p.2) ns
      (p.1 ++ q.1, p.2 + q.2)

end

mutual

/-- Number of placeholders of a node, nested ones included. -/
def nodeMoreCount : CommentNode → Nat
  | .comment _ rs => forestMoreCount rs
  | .more hidden => 1 + forestMoreCount hidden

/-- Number of placeholders of a forest, nested ones included. -/
def forestMoreCount : List CommentNode → Nat
  | [] => 0
  | n :: ns => nodeMoreCount n + forestMoreCount ns

end

/-- Modelled from the spec: the placeholder-resolution policy applied by the
collector before flattening (`replace_more_limit`); the module applying it
is not shipped under `src/`.  Per §4.1, `none` resolves every placeholder,
`some 0` drops all unresolved placeholders, and `some n` resolves up to `n`
of them (the skipped ones are removed from the forest).  Returns the
processed forest and the number of placeholders resolved. -/
def replace_more (limit : Option Nat) (forest : List CommentNode) :
    List CommentNode × Nat :=
  match limit with
  | none => (forestResolveAll forest, forestMoreCount forest)
  | some n => forestReplace n forest

mutual

/-- Flattening of a node with reply collection enabled: the comment followed
by its flattened replies, depth first; a placeholder yields no record. -/
def nodeFlatten : CommentNode → List CommentData
  | .comment c rs => c :: forestFlatten rs
  | .more _ => []

/-- Flattening of a forest with reply collection enabled. -/
def forestFlatten : List CommentNode → List CommentData
  | [] => []
  | n :: ns => nodeFlatten n ++ forestFlatten ns

end

/-- Flattening of a forest with reply collection disabled: only the
top-level comments yield records. -/
def topFlatten (forest : List CommentNode) : List CommentData :=
  forest.filterMap fun n =>
    match n with
    | .comment c _ => some c
    | .more _ => none

/-- Number of top-level comments of a forest (placeholders not counted). -/
def topLevelCount (forest : List CommentNode) : Nat :=
  (forest.filter fun n =>
    match n with
    | .comment _ _ => true
    | .more _ => false).length

/-! ### Properties of the comment-tree operations -/

theorem forestNoMore_append (xs ys : List CommentNode) :
    forestNoMore (xs ++ ys) = (forestNoMore xs && forestNoMore ys) := by
  induction xs with
  | nil => simp [forestNoMore]
  | cons n ns ih => simp [forestNoMore, ih, Bool.and_assoc]

theorem forestVisible_append (xs ys : List CommentNode) :
    forestVisible (xs ++ ys) = forestVisible xs + forestVisible ys := by
  induction xs with
  | nil => simp [forestVisible]
  | cons n ns ih => simp [forestVisible, ih]; omega

theorem forestFlatten_append (xs ys : List CommentNode) :
    forestFlatten (xs ++ ys) = forestFlatten xs ++ forestFlatten ys := by
  induction xs with
  | nil => simp [forestFlatten]
  | cons n ns ih => simp [forestFlatten, ih]

mutual

theorem nodeResolveAll_noMore (n : CommentNode) :
    forestNoMore (nodeResolveAll n) = true :=
  match n with
  | .comment c rs => by
      simp [nodeResolveAll, forestNoMore, nodeNoMore,
        forestResolveAll_noMore rs]
  | .more hidden => by
      simp [nodeResolveAll, forestResolveAll_noMore hidden]

theorem forestResolveAll_noMore (ns : List CommentNode) :
    forestNoMore (forestResolveAll ns) = true :=
  match ns with
  | [] => rfl
  | n :: ns => by
      simp [forestResolveAll, forestNoMore_append,
        nodeResolveAll_noMore n, forestResolveAll_noMore ns]

end

mutual

theorem nodeResolveAll_visible (n : CommentNode) :
    forestVisible (nodeResolveAll n) = nodeAll n :=
  match n with
  | .comment c rs => by
      simp [nodeResolveAll, forestVisible, nodeVisible, nodeAll,
        forestResolveAll_visible rs]
  | .more hidden => by
      simp [nodeResolveAll, nodeAll, forestResolveAll_visible hidden]

theorem forestResolveAll_visible (ns : List CommentNode) :
    forestVisible (forestResolveAll ns) = forestAll ns :=
  match ns with
  | [] => rfl
  | n :: ns => by
      simp [forestResolveAll, forestAll, forestVisible_append,
        nodeResolveAll_visible n, forestResolveAll_visible ns,
        forestVisible]

end

mutual

theorem nodeReplace_noMore (b : Nat) (n : CommentNode) :
    forestNoMore (nodeReplace b n).1 = true :=
  match n with
  | .comment c rs => by
      simp [nodeReplace, forestNoMore, nodeNoMore,
        forestReplace_noMore b rs]
  | .more hidden => by
      by_cases hb : b = 0
      · simp [nodeReplace, hb, forestNoMore]
      · simp [nodeReplace, hb, forestReplace_noMore (b - 1) hidden]

theorem forestReplace_noMore (b : Nat) (ns : List CommentNode) :
    forestNoMore (forestReplace b ns).1 = true :=
  match ns with
  | [] => rfl
  | n :: ns => by
      simp [forestReplace, forestNoMore_append, nodeReplace_noMore b n,
        forestReplace_noMore (b - (nodeReplace b n).2) ns]

end

mutual

theorem nodeReplace_zero_count (n : CommentNode) :
    (nodeReplace 0 n).2 = 0 :=
  match n with
  | .comment c rs => by
      simp [nodeReplace, forestReplace_zero_count rs]
  | .more _ => by simp [nodeReplace]

theorem forestReplace_zero_count (ns : List CommentNode) :
    (forestReplace 0 ns).2 = 0 :=
  match ns with
  | [] => rfl
  | n :: ns => by
      simp [forestReplace, nodeReplace_zero_count n,
        forestReplace_zero_count ns]

end

mutual

theorem nodeReplace_count_le (b : Nat) (n : CommentNode) :
    (nodeReplace b n).2 ≤ b :=
  match n with
  | .comment c rs => by
      simp only [nodeReplace]
      exact forestReplace_count_le b rs
  | .more hidden => by
      by_cases hb : b = 0
      · simp [nodeReplace, hb]
      · simp only [nodeReplace, if_neg hb]
        have := forestReplace_count_le (b - 1) hidden
        omega

theorem forestReplace_count_le (b : Nat) (ns : List CommentNode) :
    (forestReplace b ns).2 ≤ b :=
  match ns with
  | [] => Nat.zero_le b
  | n :: ns => by
      simp only [forestReplace]
      have h1 := nodeReplace_count_le b n
      have h2 := forestReplace_count_le (b - (nodeReplace b n).2) ns
      omega

end

mutual

theorem nodeFlatten_length_of_noMore (n : CommentNode) :
    nodeNoMore n = true → (nodeFlatten n).length = nodeAll n :=
  match n with
  | .comment c rs => by
      intro h
      simp only [nodeFlatten, nodeAll, List.length_cons]
      have := forestFlatten_length_of_noMore rs (by simpa [nodeNoMore] using h)
      omega
  | .more hidden => by
      intro h
      simp [nodeNoMore] at h

theorem forestFlatten_length_of_noMore (ns : List CommentNode) :
    forestNoMore ns = true → (forestFlatten ns).length = forestAll ns :=
  match ns with
  | [] => fun _ => rfl
  | n :: ns => by
      intro h
      rw [forestNoMore, Bool.and_eq_true] at h
      simp only [forestFlatten, forestAll, List.length_append]
      rw [nodeFlatten_length_of_noMore n h.1,
        forestFlatten_length_of_noMore ns h.2]

end

theorem topFlatten_length (ns : List CommentNode) :
    (topFlatten ns).length = topLevelCount ns := by
  induction ns with
  | nil => rfl
  | cons n ns ih =>
      cases n with
      | comment c rs => simp [topFlatten, topLevelCount, List.filter] at ih ⊢; omega
      | more hidden => simpa [topFlatten, topLevelCount, List.filter] using ih

/-! ## The collector -/

/-- The upstream Reddit API client, abstracted as the read-only data it can
deliver: the display names a subreddit-name search returns, the post listing
of a subreddit under a filter, and the comment forest of a post. -/
structure RedditAPI : Type where
  searchByName : String → List String
  listing : String → String → List PostData
  commentForest : String → List CommentNode

/-- A network call the collector can make against the Reddit API: a
subreddit-name search (the existence check), a post fetch, or a comment
fetch. -/
inductive ApiCall : Type where
  | search (name : String)
  | fetchPosts (subreddit : String)
  | fetchComments (post_id : String)
  deriving Repr, DecidableEq

/-- `true` when a call retrieves posts or comments (as opposed to the
existence check's name search). -/
def ApiCall.isFetch : ApiCall → Bool
  | .search _ => false
  | .fetchPosts _ => true
  | .fetchComments _ => true

/-- ASCII lowercasing of a character (the effect of Python's `str.lower()`
on subreddit names, which are ASCII). -/
def lowerChar (c : Char) : Char :=
  if 65 ≤ c.toNat ∧ c.toNat ≤ 90 then Char.ofNat (c.toNat + 32) else c

/-- ASCII lowercasing of a string. -/
def lowerStr (s : String) : String := ⟨s.data.map lowerChar⟩

/-- Modelled from the spec: `_check_subreddit_exists` of
`reddit_data_collector` is not shipped under `src/`.  It searches the
supplied name and accepts when a returned display name matches; per the
CHANGELOG entry for 1.0.2, both the supplied and the fetched name are
compared as `.lower()`. -/
def check_subreddit_exists (api : RedditAPI) (name : String) : Bool :=
  (api.searchByName name).any fun d => lowerStr d = lowerStr name

/-- The posts collected for one subreddit: up to `post_limit` posts of its
listing under the given filter, the whole listing when no limit is
requested. -/
def collectPosts (api : RedditAPI) (post_filter : String)
    (post_limit : Option Nat) (subreddit : String) : List PostData :=
  match post_limit with
  | none => api.listing post_filter subreddit
  | some n => (api.listing post_filter subreddit).take n

/-- The comment records collected for one post: its comment forest after
placeholder resolution, flattened with or without replies. -/
def collectComments (api : RedditAPI) (replies_data : Bool)
    (replace_more_limit : Option Nat) (p : PostData) : List CommentData :=
  let forest := (replace_more replace_more_limit (api.commentForest p.id)).1
  if replies_data then forestFlatten forest else topFlatten forest

/-- Modelled from the spec: `get_data` of `reddit_data_collector` is not
shipped under `src/`.  Per §4.1 it first checks every supplied subreddit
name and fails fast with a descriptive error on the first invalid one,
before any post or comment fetch; otherwise it fetches up to the requested
number of posts per subreddit and, when asked, each post's comment records.
Alongside the result it returns the trace of network calls made. -/
def get_data (api : RedditAPI) (subreddits : List String)
    (post_filter : String) (post_limit : Option Nat) (comment_data : Bool)
    (replies_data : Bool) (replace_more_limit : Option Nat) :
    Except String (List (String × List PostData) × List CommentData) ×
      List ApiCall :=
  match subreddits.find? (fun s => ! check_subreddit_exists api s) with
  | some bad =>
      (.error ("Invalid subreddit name provided: " ++ bad),
       (subreddits.takeWhile (fun s => check_subreddit_exists api s)).map
          ApiCall.search ++ [ApiCall.search bad])
  | none =>
      let posts := subreddits.map fun s =>
        (s, collectPosts api post_filter post_limit s)
      let allPosts := posts.flatMap Prod.snd
      let comments :=
        if comment_data then
          allPosts.flatMap (collectComments api replies_data replace_more_limit)
        else []
      (.ok (posts, comments),
       subreddits.map ApiCall.search ++
         subreddits.map ApiCall.fetchPosts ++
         if comment_data then allPosts.map (fun p => ApiCall.fetchComments p.id)
         else [])

/-! ## Sample data used by the witnesses -/

/-- A sample post record with the given id. -/
def samplePost (i : String) : PostData :=
  ⟨"pics", 0, i, false, false, none, false, 0, false, 1, false, false,
   "t", 1, "u"⟩

/-- A sample comment record with the given id and parent post. -/
def sampleComment (i pid : String) (top : Bool) : CommentData :=
  ⟨"pics", i, pid, pid, top, "b", 0, false, 1, false⟩

/-- A sample filesystem holding one post snapshot at "posts.csv". -/
def sampleFS : String → Option (List PostData) := fun p =>
  if p = "posts.csv" then some [samplePost "a"] else none

/-- A sample comment forest: two top-level comments, the first of which has
one reply (2 top-level comments, 3 comments in total, no placeholder). -/
def sampleForest : List CommentNode :=
  [.comment (sampleComment "c1" "p1" true)
     [.comment (sampleComment "c2" "p1" false) []],
   .comment (sampleComment "c3" "p1" true) []]

/-- A sample Reddit API: one subreddit "pics" whose listing holds two posts,
each post carrying `sampleForest` as its comments. -/
def sampleAPI : RedditAPI :=
  ⟨fun _ => ["pics"], fun _ _ => [samplePost "a", samplePost "b"],
   fun _ => sampleForest⟩

/-! ## The claims -/

/-- Shared helper: merging a batch whose ids all already occur in the first
argument of the concatenation adds nothing beyond the deduplication of the
first argument. -/
theorem merge_records_absorb {α κ : Type} [DecidableEq κ] (f : α → κ)
    (P B : List α) (h : ∀ b ∈ B, f b ∈ P.map f) :
    merge_records f P B = dedupByKey f P [] := by
  unfold merge_records
  rw [dedupByKey_append]
  rw [dedupByKey_eq_nil f B _ ?_]
  · simp
  · intro b hb
    rw [mem_seenAfter]
    exact Or.inl (h b hb)

/-- C1: the update/merge operation returns the concatenation of the prior
snapshot `P` followed by the new batch `B` with duplicate ids removed
keeping the first occurrence; when `P` is empty the result is exactly `B`
deduplicated by id. -/
theorem update_data_keeps_first_occurrence {α κ : Type} [DecidableEq κ]
    (f : α → κ) (fs : String → Option (List α)) (path : String)
    (P B : List α) (save : Bool) (hP : fs path = some P) :
    (update_data f fs path B save).1 = keepFirstByKey f (P ++ B) ∧
      (P = [] → (update_data f fs path B save).1 = keepFirstByKey f B) := by
  constructor
  · simp [update_data, load_data, hP, keepFirstByKey_eq_dedup]
  · intro h
    subst h
    simp [update_data, load_data, hP, keepFirstByKey_eq_dedup]

/-- Witness for C1 at a concrete snapshot and batch. -/
theorem update_data_keeps_first_occurrence_witness :
    (update_data (fun p : PostData => p.id) sampleFS "posts.csv"
        [samplePost "b"] false).1
      = keepFirstByKey (fun p : PostData => p.id)
          ([samplePost "a"] ++ [samplePost "b"]) ∧
      ([samplePost "a"] = ([] : List PostData) →
        (update_data (fun p : PostData => p.id) sampleFS "posts.csv"
            [samplePost "b"] false).1
          = keepFirstByKey (fun p : PostData => p.id) [samplePost "b"]) :=
  update_data_keeps_first_occurrence (fun p : PostData => p.id) sampleFS
    "posts.csv" [samplePost "a"] [samplePost "b"] false (by decide)

/-- C2: the update/merge operation is idempotent in the new batch: merging
`B` into the saved result of merging `B` into the snapshot at `path` yields
the same records as the first merge. -/
theorem update_data_idempotent {α κ : Type} [DecidableEq κ] (f : α → κ)
    (fs : String → Option (List α)) (path : String) (B : List α)
    (save : Bool) :
    (update_data f (update_data f fs path B true).2 path B save).1
      = (update_data f fs path B true).1 := by
  set P := load_data fs path with hP
  have hload :
      load_data (update_data f fs path B true).2 path
        = dedupByKey f (P ++ B) [] := by
    simp [update_data, load_data, hP]
  show dedupByKey f
      (load_data (update_data f fs path B true).2 path ++ B) []
    = dedupByKey f (P ++ B) []
  rw [hload, dedupByKey_append]
  rw [dedupByKey_idem]
  rw [dedupByKey_eq_nil f B _ ?_]
  · simp
  · intro b hb
    rw [mem_seenAfter]
    refine Or.inl (mem_map_dedupByKey f (f b) (P ++ B) [] ?_ (by simp))
    simp only [List.map_append, List.mem_append]
    exact Or.inr (List.mem_map_of_mem f hb)

/-- C3: id-uniqueness is preserved by merge: when every id occurs exactly
once in the prior snapshot `P`, the merged result also has pairwise distinct
ids, and merging records whose ids are all already present in `P` leaves the
snapshot unchanged. -/
theorem merge_preserves_id_uniqueness {α κ : Type} [DecidableEq κ]
    (f : α → κ) (P B : List α) (hP : (P.map f).Nodup) :
    ((merge_records f P B).map f).Nodup ∧
      ((∀ b ∈ B, f b ∈ P.map f) → merge_records f P B = P) := by
  constructor
  · exact (dedupByKey_map_nodup f (P ++ B) []).1
  · intro h
    rw [merge_records_absorb f P B h]
    exact dedupByKey_of_nodup f P [] hP (by simp)

/-- Witness for C3 at a concrete snapshot and batch. -/
theorem merge_preserves_id_uniqueness_witness :
    (((merge_records (fun p : PostData => p.id) [samplePost "a"]
        [samplePost "a"]).map (fun p : PostData => p.id)).Nodup ∧
      ((∀ b ∈ [samplePost "a"],
          (fun p : PostData => p.id) b
            ∈ [samplePost "a"].map (fun p : PostData => p.id)) →
        merge_records (fun p : PostData => p.id) [samplePost "a"]
          [samplePost "a"] = [samplePost "a"])) :=
  merge_preserves_id_uniqueness (fun p : PostData => p.id)
    [samplePost "a"] [samplePost "a"] (by decide)

/-- C7: the update/merge operation at a path holding no snapshot treats the
missing file as an empty prior snapshot and returns the new batch
deduplicated by id (no failure: the operation is total). -/
theorem update_data_missing_file {α κ : Type} [DecidableEq κ] (f : α → κ)
    (fs : String → Option (List α)) (path : String) (B : List α)
    (save : Bool) (h : fs path = none) :
    (update_data f fs path B save).1 = keepFirstByKey f B := by
  simp [update_data, load_data, h, keepFirstByKey_eq_dedup]

/-- Witness for C7 at a concrete batch and an empty filesystem. -/
theorem update_data_missing_file_witness :
    (update_data (fun p : PostData => p.id) (fun _ => none) "missing.csv"
        [samplePost "a", samplePost "a"] true).1
      = keepFirstByKey (fun p : PostData => p.id)
          [samplePost "a", samplePost "a"] :=
  update_data_missing_file (fun p : PostData => p.id) (fun _ => none)
    "missing.csv" [samplePost "a", samplePost "a"] true rfl

/-- C5: flattening a placeholder-free comment forest with reply collection
enabled yields one record per comment, replies included (M records); with
reply collection disabled it yields one record per top-level comment
(N records). -/
theorem flatten_record_counts (forest : List CommentNode)
    (h : forestNoMore forest = true) :
    (forestFlatten forest).length = forestAll forest ∧
      (topFlatten forest).length = topLevelCount forest :=
  ⟨forestFlatten_length_of_noMore forest h, topFlatten_length forest⟩

/-- Witness for C5 at a forest with 2 top-level and 3 total comments. -/
theorem flatten_record_counts_witness :
    (forestFlatten sampleForest).length = forestAll sampleForest ∧
      (topFlatten sampleForest).length = topLevelCount sampleForest :=
  flatten_record_counts sampleForest (by decide)

/-- C8: the placeholder-resolution policy: with `some 0` no placeholder is
resolved and none survives into the output; with `none` every placeholder is
resolved, so the result is placeholder-free and every comment, previously
hidden ones included, is materialised; with `some n` at most `n`
placeholders are resolved. -/
theorem replace_more_policy (forest : List CommentNode) (n : Nat) :
    ((replace_more (some 0) forest).2 = 0 ∧
      forestNoMore (replace_more (some 0) forest).1 = true) ∧
    (forestNoMore (replace_more none forest).1 = true ∧
      forestVisible (replace_more none forest).1 = forestAll forest) ∧
    (replace_more (some n) forest).2 ≤ n := by
  refine ⟨⟨?_, ?_⟩, ⟨?_, ?_⟩, ?_⟩
  · exact forestReplace_zero_count forest
  · exact forestReplace_noMore 0 forest
  · exact forestResolveAll_noMore forest
  · exact forestResolveAll_visible forest
  · exact forestReplace_count_le n forest

/-- C4: with a requested limit `n`, the collection routine collects at most
`n` post records for each subreddit. -/
theorem get_data_post_limit (api : RedditAPI) (subreddits : List String)
    (post_filter : String) (n : Nat) (comment_data replies_data : Bool)
    (replace_more_limit : Option Nat)
    (posts : List (String × List PostData)) (comments : List CommentData)
    (hok : (get_data api subreddits post_filter (some n) comment_data
        replies_data replace_more_limit).1 = Except.ok (posts, comments))
    (e : String × List PostData) (he : e ∈ posts) :
    e.2.length ≤ n := by
  unfold get_data at hok
  cases hfind : subreddits.find? (fun s => ! check_subreddit_exists api s) with
  | some bad => rw [hfind] at hok; simp at hok
  | none =>
      rw [hfind] at hok
      simp only [Except.ok.injEq, Prod.mk.injEq] at hok
      obtain ⟨hposts, -⟩ := hok
      rw [← hposts] at he
      obtain ⟨s, -, rfl⟩ := List.mem_map.1 he
      simp only [collectPosts, List.length_take]
      exact min_le_left n _

/-- Witness for C4 at a concrete API, one subreddit and limit 1. -/
theorem get_data_post_limit_witness :
    (("pics", [samplePost "a"]) : String × List PostData).2.length ≤ 1 :=
  get_data_post_limit sampleAPI ["pics"] "hot" 1 true true (some 0)
    [("pics", [samplePost "a"])]
    [sampleComment "c1" "p1" true, sampleComment "c2" "p1" false,
     sampleComment "c3" "p1" true] rfl
    ("pics", [samplePost "a"]) (by decide)

/-- C6: when some supplied subreddit name fails the existence check, the
collection routine returns a descriptive error naming an offending
subreddit, and its network trace contains no call that retrieves posts or
comments. -/
theorem get_data_invalid_fails_fast (api : RedditAPI)
    (subreddits : List String) (post_filter : String)
    (post_limit : Option Nat) (comment_data replies_data : Bool)
    (replace_more_limit : Option Nat)
    (h : ∃ s ∈ subreddits, check_subreddit_exists api s = false) :
    ∃ bad ∈ subreddits, check_subreddit_exists api bad = false ∧
      (get_data api subreddits post_filter post_limit comment_data
          replies_data replace_more_limit).1
        = Except.error ("Invalid subreddit name provided: " ++ bad) ∧
      ∀ c ∈ (get_data api subreddits post_filter post_limit comment_data
          replies_data replace_more_limit).2, c.isFetch = false := by
  have hsome :
      (subreddits.find? (fun s => ! check_subreddit_exists api s)).isSome := by
    rw [List.find?_isSome]
    obtain ⟨s, hs, hfalse⟩ := h
    exact ⟨s, hs, by simp [hfalse]⟩
  obtain ⟨bad, hfind⟩ := Option.isSome_iff_exists.1 hsome
  refine ⟨bad, List.mem_of_find?_eq_some hfind, ?_, ?_, ?_⟩
  · simpa using List.find?_some hfind
  · simp [get_data, hfind]
  · intro c hc
    simp only [get_data, hfind] at hc
    rcases List.mem_append.1 hc with h1 | h1
    · obtain ⟨s, -, rfl⟩ := List.mem_map.1 h1
      rfl
    · rw [List.mem_singleton] at h1
      subst h1
      rfl

/-- Witness for C6 at a concrete API and an unknown subreddit name. -/
theorem get_data_invalid_fails_fast_witness :
    ∃ bad ∈ ["nope"], check_subreddit_exists sampleAPI bad = false ∧
      (get_data sampleAPI ["nope"] "hot" (some 1) true true (some 0)).1
        = Except.error ("Invalid subreddit name provided: " ++ bad) ∧
      ∀ c ∈ (get_data sampleAPI ["nope"] "hot" (some 1) true true
          (some 0)).2, c.isFetch = false :=
  get_data_invalid_fails_fast sampleAPI ["nope"] "hot" (some 1) true true
    (some 0) (by decide)

/-- C9: a flattened post record carries exactly the 15 columns of the data
model and a flattened comment record exactly the 10, in order, and the
persisted snapshot headers match those column lists. -/
theorem record_fields_complete :
    (∀ p : PostData, (postToRow p).map Prod.fst = postRecordFields) ∧
    postRecordFields.length = 15 ∧
    (∀ c : CommentData, (commentToRow c).map Prod.fst = commentRecordFields) ∧
    commentRecordFields.length = 10 ∧
    postSnapshotHeader = postRecordFields ∧
    commentSnapshotHeader = commentRecordFields :=
  ⟨fun _ => rfl, rfl, fun _ => rfl, rfl, rfl, rfl⟩

/-- C10: the existence check compares names lowercased on both sides, so a
supplied name differing from a fetched display name only in letter case is
accepted and collection proceeds instead of failing fast. -/
theorem check_subreddit_case_insensitive (api : RedditAPI) (name d : String)
    (post_filter : String) (post_limit : Option Nat)
    (comment_data replies_data : Bool) (replace_more_limit : Option Nat)
    (hd : d ∈ api.searchByName name) (hcase : lowerStr d = lowerStr name) :
    check_subreddit_exists api name = true ∧
      ∃ r, (get_data api [name] post_filter post_limit comment_data
          replies_data replace_more_limit).1 = Except.ok r := by
  have hc : check_subreddit_exists api name = true := by
    rw [check_subreddit_exists, List.any_eq_true]
    exact ⟨d, hd, by simp [hcase]⟩
  have hfind :
      ([name].find? (fun s => ! check_subreddit_exists api s)) = none := by
    simp [List.find?, hc]
  refine ⟨hc, ?_⟩
  simp only [get_data, hfind]
  exact ⟨_, rfl⟩

/-- Witness for C10: "PICS" is accepted when the API's display name for it
is "pics". -/
theorem check_subreddit_case_insensitive_witness :
    check_subreddit_exists sampleAPI "PICS" = true ∧
      ∃ r, (get_data sampleAPI ["PICS"] "hot" (some 1) true true
          (some 0)).1 = Except.ok r :=
  check_subreddit_case_insensitive sampleAPI "PICS" "pics" "hot" (some 1)
    true true (some 0) (by decide) (by decide)
